import Mathlib

/-
Verification of `src/Lab1/cross_vessel_list_with_imo_skeleton.py`.

The Python module contains three functions:

* `extract_imo` (lines 119-158): reads a CSV file and builds a dict mapping
  field 0 (IMO) to field 1 (MMSI) of every row, last row winning.
* `extract_ship_properties` (lines 161-216): loads the registry, parses the
  XML document, iterates over the `skos:Concept` elements, extracts each
  concept's prefLabel text and definition text, prints the definition, and
  falls off the end of the function (implicitly returning `None`; the result
  set `new_set` is initialized but never populated and never returned).
* `get_text` (lines 220-236): concatenates the data of the direct TEXT_NODE
  children of an element and strips surrounding whitespace.

The embedding below models CSV input as a list of rows (each a list of string
fields, as produced by `csv.reader`), XML input as a tree of element/text
nodes, Python's `dict` as an insertion-ordered association list, raised
exceptions as `Except.error`, and the `print` calls as an accumulated list of
printed strings.  File access is abstracted: an input is either its parsed
content or an unreadable/unparsable marker.
-/

/-- Errors raised by the Python code, plus the two error labels that the
natural-language specification asks for.  `fileNotFound` stands for the
`EnvironmentError` raised when `open`/`parse` meets a missing file;
`expatError` for `xml.parsers.expat.ExpatError` on non-well-formed XML
(whose message carries no file name); `indexError` for `IndexError` from a
`[...]` subscript.  `malformedRowError` and `documentParseError` are modelled
from the spec only: the code never raises them. -/
inductive PyError where
  | fileNotFound
  | expatError
  | indexError
  | malformedRowError
  | documentParseError
deriving DecidableEq

/-- A Python `dict` with string keys and values, modelled as an
insertion-ordered association list with at most one entry per key. -/
abbrev Dict := List (String × String)

/-- Python `d[k] = v`: replace the value of the existing entry for `k`,
keeping its position, or append a new entry at the end. -/
def dictInsert : Dict → String → String → Dict
  | [], k, v => [(k, v)]
  | p :: rest, k, v =>
    if p.1 = k then (k, v) :: rest else p :: dictInsert rest k v

/-- Python `d.get(k)` / `d[k]`: the value of the first entry with key `k`. -/
def dictLookup : Dict → String → Option String
  | [], _ => none
  | p :: rest, k => if p.1 = k then some p.2 else dictLookup rest k

/-- Loop body of `extract_imo` (source lines 156-157):
`for row in csv_reader: directory[row[0]] = row[1]`.
A row with fewer than two fields makes `row[0]` or `row[1]` raise
`IndexError`. -/
def extract_imo_loop : Dict → List (List String) → Except PyError Dict
  | directory, [] => Except.ok directory
  | directory, row :: rest =>
    match row with
    | f0 :: f1 :: _ => extract_imo_loop (dictInsert directory f0 f1) rest
    | _ => Except.error PyError.indexError

/-- `extract_imo` (source lines 119-158): starting from the empty dict,
process every CSV row (no header row is skipped) and return the dict. -/
def extract_imo (rows : List (List String)) : Except PyError Dict :=
  extract_imo_loop [] rows

/-- The MMSI contributed by one CSV row for the key `k`: `some` of field 1
when field 0 equals `k`, otherwise `none`. -/
def rowValue (k : String) : List String → Option String
  | f0 :: f1 :: _ => if f0 = k then some f1 else none
  | _ => none

/-- First-of-two choice on options: keep the left value when present. -/
def optOr : Option String → Option String → Option String
  | some v, _ => some v
  | none, b => b

/-- The value of the last row whose field 0 equals `k` (later rows take
precedence over earlier ones). -/
def lastMMSI (k : String) : List (List String) → Option String
  | [] => none
  | row :: rest => optOr (lastMMSI k rest) (rowValue k row)

/-- Character class stripped by Python's `str.strip()` (ASCII whitespace). -/
def isSpaceChar (c : Char) : Bool :=
  c == ' ' || c == '\t' || c == '\n' || c == '\r' || c == '\x0b' || c == '\x0c'

/-- Python `s.strip()`: remove leading and trailing whitespace. -/
def pyStrip (s : String) : String :=
  String.mk (((s.data.dropWhile isSpaceChar).reverse.dropWhile isSpaceChar).reverse)

/-- A node of the `xml.dom.minidom` tree: an element with a tag and an
ordered list of child nodes, or a text node carrying character data.
(Attributes play no role in the Python code and are omitted.) -/
inductive XmlNode where
  | text (data : String)
  | element (tag : String) (children : List XmlNode)

/-- The `childNodes` of a DOM node (text nodes have none). -/
def childNodes : XmlNode → List XmlNode
  | XmlNode.text _ => []
  | XmlNode.element _ cs => cs

/-- The `data` of a node when `child.nodeType == child.TEXT_NODE`. -/
def textData : XmlNode → Option String
  | XmlNode.text d => some d
  | XmlNode.element _ _ => none

/-- Whether a node is a TEXT_NODE. -/
def isTextNode : XmlNode → Bool
  | XmlNode.text _ => true
  | XmlNode.element _ _ => false

/-- The `data` strings of the direct TEXT_NODE children, in document order. -/
def directTextPieces : List XmlNode → List String
  | [] => []
  | XmlNode.text d :: rest => d :: directTextPieces rest
  | XmlNode.element _ _ :: rest => directTextPieces rest

/-- `get_text` (source lines 220-236): concatenate the `data` of the direct
TEXT_NODE children of `element` and strip the result. -/
def get_text (element : XmlNode) : String :=
  pyStrip (String.join ((childNodes element).filterMap textData))

mutual

/-- All elements with the given tag in the subtree rooted at a node,
including the node itself, in document (preorder) order. -/
def matchedSelf (tag : String) : XmlNode → List XmlNode
  | XmlNode.text _ => []
  | XmlNode.element t cs =>
    (if t = tag then [XmlNode.element t cs] else []) ++ matchedList tag cs

/-- All elements with the given tag in the subtrees rooted at a list of
sibling nodes, in document order. -/
def matchedList (tag : String) : List XmlNode → List XmlNode
  | [] => []
  | c :: rest => matchedSelf tag c ++ matchedList tag rest

end

/-- DOM `node.getElementsByTagName(tag)`: all descendant elements (the node
itself excluded) with the given tag, in document order. -/
def getElementsByTagName (tag : String) (n : XmlNode) : List XmlNode :=
  match n with
  | XmlNode.text _ => []
  | XmlNode.element _ cs => matchedList tag cs

mutual

/-- All strict descendants of a node, in document (preorder) order. -/
def descendants : XmlNode → List XmlNode
  | XmlNode.text _ => []
  | XmlNode.element _ cs => descendantsList cs

/-- The nodes of a list of sibling subtrees: each sibling followed by its
descendants. -/
def descendantsList : List XmlNode → List XmlNode
  | [] => []
  | c :: rest => c :: (descendants c ++ descendantsList rest)

end

/-- The element whose text becomes `vessel_name` at source line 210:
`member.getElementsByTagName("skos:prefLabel")[0]`, `none` when the
subscript would raise `IndexError`. -/
def conceptNameElem (member : XmlNode) : Option XmlNode :=
  (getElementsByTagName ("skos:prefLabel") member).head?

/-- The element whose text becomes `definition` at source line 213:
`member.getElementsByTagName("skos:definition")[0]`, `none` when the
subscript would raise `IndexError`. -/
def conceptDefElem (member : XmlNode) : Option XmlNode :=
  (getElementsByTagName ("skos:definition") member).head?

/-- The registry file as seen by `open` + `csv.reader`: either the parsed
rows, or unreadable (raising `EnvironmentError`). -/
inductive CsvInput where
  | ok (rows : List (List String))
  | ioError

/-- The document file as seen by `xml.dom.minidom.parse`: the parsed tree,
a missing/unreadable file (raising `EnvironmentError`), or a present but
non-well-formed file (raising `xml.parsers.expat.ExpatError`). -/
inductive XmlInput where
  | ok (doc : XmlNode)
  | ioError
  | notWellFormed

/-- Reading the registry file inside `extract_imo` (source line 154). -/
def readCsv : CsvInput → Except PyError Dict
  | CsvInput.ioError => Except.error PyError.fileNotFound
  | CsvInput.ok rows => extract_imo rows

/-- `xml.dom.minidom.parse` at source line 204.  This call stands before the
`try` block, so its exceptions propagate out of the function; the duplicate
parse inside the `try` (lines 205-208) reads the same file and therefore
behaves identically, making the `except` branch unreachable. -/
def parseXml : XmlInput → Except PyError XmlNode
  | XmlInput.ioError => Except.error PyError.fileNotFound
  | XmlInput.notWellFormed => Except.error PyError.expatError
  | XmlInput.ok doc => Except.ok doc

/-- Observable outcome of one call to `extract_ship_properties`:
the Python return value (`none` models Python's `None`; a returned set of
3-tuples would be `some` of its elements) and the lines written by `print`. -/
structure RunResult where
  returned : Option (List (String × String × String))
  printed : List String

/-- Loop body of `extract_ship_properties` (source lines 209-214): for each
`skos:Concept` element, take the first `skos:prefLabel` descendant
(`IndexError` if there is none), read its text into `vessel_name`, take the
first `skos:definition` descendant (`IndexError` if there is none), read its
text and print it.  Nothing is ever added to `new_set`. -/
def conceptLoop : List XmlNode → List String → Except PyError (List String)
  | [], printed => Except.ok printed
  | member :: rest, printed =>
    match conceptNameElem member with
    | none => Except.error PyError.indexError
    | some nameElem =>
      let _vessel_name := get_text nameElem
      match conceptDefElem member with
      | none => Except.error PyError.indexError
      | some defElem => conceptLoop rest (printed ++ [get_text defElem])

/-- `extract_ship_properties` (source lines 161-216): build the IMO dict,
parse the document, run the concept loop, and fall off the end of the
function body — the Python function has no `return` statement, so it
returns `None` whenever it completes. -/
def extract_ship_properties (csvIn : CsvInput) (xmlIn : XmlInput) :
    Except PyError RunResult :=
  match readCsv csvIn with
  | Except.error e => Except.error e
  | Except.ok _dictionary =>
    match parseXml xmlIn with
    | Except.error e => Except.error e
    | Except.ok dom =>
      match conceptLoop (getElementsByTagName ("skos:Concept") dom) [] with
      | Except.error e => Except.error e
      | Except.ok printed => Except.ok (RunResult.mk none printed)

/-- The definition text of the sample concept, a JSON object with an IMO
field (compare the fixture at source lines 73-78). -/
def sampleDefinitionText : String :=
  "\x7b\"IMO\": \"8219384\"\x7d"

/-- The prefLabel element of the sample concept. -/
def samplePrefLabel : XmlNode :=
  XmlNode.element ("skos:prefLabel") [XmlNode.text ("2nd Lt. John P.Bobo")]

/-- A `skos:Concept` element mirroring the fixture at source lines 66-87:
a prefLabel naming the ship and a definition holding JSON with an IMO key. -/
def sampleConcept : XmlNode :=
  XmlNode.element ("skos:Concept")
    [samplePrefLabel,
     XmlNode.element ("skos:definition") [XmlNode.text sampleDefinitionText]]

/-- The prefLabel that is a direct child of the `skos:Collection` element
(source line 39) — not the name of any ship. -/
def collectionLabel : XmlNode :=
  XmlNode.element ("skos:prefLabel") [XmlNode.text ("ICES Platform Codes")]

/-- A document shaped like the ICES sample: a collection carrying its own
prefLabel and one member concept. -/
def sampleDoc : XmlNode :=
  XmlNode.element ("rdf:RDF")
    [XmlNode.element ("skos:Collection")
      [collectionLabel,
       XmlNode.element ("skos:member") [sampleConcept]]]

/-- A document whose single concept has a prefLabel but no definition
child. -/
def noDefinitionDoc : XmlNode :=
  XmlNode.element ("rdf:RDF")
    [XmlNode.element ("skos:Collection")
      [collectionLabel,
       XmlNode.element ("skos:member")
         [XmlNode.element ("skos:Concept")
           [XmlNode.element ("skos:prefLabel") [XmlNode.text ("Nameless")]]]]]

/-- Looking a key up after a `dict` assignment: the assigned key now maps to
the new value, every other key is untouched. -/
theorem dictLookup_dictInsert (d : Dict) (k v k' : String) :
    dictLookup (dictInsert d k v) k' = if k = k' then some v else dictLookup d k' := by
  induction d with
  | nil => simp [dictInsert, dictLookup]
  | cons p rest ih =>
    by_cases hp : p.1 = k
    · by_cases hk : k = k'
      · simp [dictInsert, dictLookup, hp, hk]
      · have hp' : ¬ p.1 = k' := by rw [hp]; exact hk
        simp [dictInsert, dictLookup, hp, hk, hp']
    · by_cases hpk : p.1 = k'
      · have hk : ¬ k = k' := fun hh => hp (hpk.trans hh.symm)
        have hk' : ¬ k' = k := fun hh => hk hh.symm
        simp [dictInsert, dictLookup, hp, hpk, hk, hk']
      · simp [dictInsert, dictLookup, hp, hpk, ih]

/-- Every entry of the dict after an assignment is either the assigned pair
or an entry that was already present. -/
theorem mem_dictInsert (d : Dict) (k v : String) (p : String × String)
    (h : p ∈ dictInsert d k v) : p = (k, v) ∨ p ∈ d := by
  induction d with
  | nil => simpa [dictInsert] using h
  | cons q rest ih =>
    by_cases hq : q.1 = k
    · simp only [dictInsert, if_pos hq] at h
      rcases List.mem_cons.mp h with h1 | h1
      · exact Or.inl h1
      · exact Or.inr (List.mem_cons_of_mem _ h1)
    · simp only [dictInsert, if_neg hq] at h
      rcases List.mem_cons.mp h with h1 | h1
      · exact Or.inr (h1 ▸ List.mem_cons_self _ _)
      · rcases ih h1 with h2 | h2
        · exact Or.inl h2
        · exact Or.inr (List.mem_cons_of_mem _ h2)

/-- Every key of the dict after an assignment is either an old key or the
assigned key. -/
theorem mem_keys_dictInsert (d : Dict) (k v x : String)
    (h : x ∈ (dictInsert d k v).map Prod.fst) : x ∈ d.map Prod.fst ∨ x = k := by
  rcases List.mem_map.mp h with ⟨p, hp, hx⟩
  rcases mem_dictInsert d k v p hp with h1 | h1
  · right; rw [← hx, h1]
  · left; rw [← hx]; exact List.mem_map_of_mem _ h1

/-- A `dict` assignment keeps the keys pairwise distinct. -/
theorem nodup_keys_dictInsert (d : Dict) (k v : String)
    (h : (d.map Prod.fst).Nodup) : ((dictInsert d k v).map Prod.fst).Nodup := by
  induction d with
  | nil => simp [dictInsert]
  | cons q rest ih =>
    rw [List.map_cons, List.nodup_cons] at h
    by_cases hq : q.1 = k
    · simp only [dictInsert, if_pos hq]
      rw [List.map_cons, List.nodup_cons]
      refine ⟨?_, h.2⟩
      have h1 := h.1
      rw [hq] at h1
      exact h1
    · simp only [dictInsert, if_neg hq]
      rw [List.map_cons, List.nodup_cons]
      refine ⟨?_, ih h.2⟩
      intro hmem
      rcases mem_keys_dictInsert rest k v q.1 hmem with h1 | h1
      · exact h.1 h1
      · exact hq h1

/-- A key that resolves before a `dict` assignment still resolves after. -/
theorem dictLookup_isSome_dictInsert (d : Dict) (k v k' : String)
    (h : (dictLookup d k').isSome) : (dictLookup (dictInsert d k v) k').isSome := by
  rw [dictLookup_dictInsert]
  by_cases hk : k = k' <;> simp [hk, h]

/-- The CSV loop resolves each key to the last matching row of the input,
falling back to the initial dict for keys no row mentions. -/
theorem extract_imo_loop_lookup (rows : List (List String)) :
    ∀ (d0 d : Dict), extract_imo_loop d0 rows = Except.ok d →
      ∀ k : String, dictLookup d k = optOr (lastMMSI k rows) (dictLookup d0 k) := by
  induction rows with
  | nil =>
    intro d0 d h k
    simp only [extract_imo_loop, Except.ok.injEq] at h
    subst h
    simp [lastMMSI, optOr]
  | cons row rest ih =>
    intro d0 d h k
    cases row with
    | nil => simp [extract_imo_loop] at h
    | cons f0 tail =>
      cases tail with
      | nil => simp [extract_imo_loop] at h
      | cons f1 t =>
        simp only [extract_imo_loop] at h
        have hrec := ih (dictInsert d0 f0 f1) d h k
        rw [hrec, dictLookup_dictInsert]
        simp only [lastMMSI, rowValue]
        by_cases hf : f0 = k <;> cases hm : lastMMSI k rest <;>
          simp [optOr, hf, hm]

/-- The CSV loop preserves distinctness of the dict keys. -/
theorem extract_imo_loop_nodup (rows : List (List String)) :
    ∀ (d0 d : Dict), (d0.map Prod.fst).Nodup →
      extract_imo_loop d0 rows = Except.ok d → (d.map Prod.fst).Nodup := by
  induction rows with
  | nil =>
    intro d0 d h0 h
    simp only [extract_imo_loop, Except.ok.injEq] at h
    subst h
    exact h0
  | cons row rest ih =>
    intro d0 d h0 h
    cases row with
    | nil => simp [extract_imo_loop] at h
    | cons f0 tail =>
      cases tail with
      | nil => simp [extract_imo_loop] at h
      | cons f1 t =>
        simp only [extract_imo_loop] at h
        exact ih _ d (nodup_keys_dictInsert d0 f0 f1 h0) h

/-- A key that resolves when the CSV loop starts still resolves when it
finishes. -/
theorem extract_imo_loop_isSome (rows : List (List String)) :
    ∀ (d0 d : Dict) (k : String), extract_imo_loop d0 rows = Except.ok d →
      (dictLookup d0 k).isSome → (dictLookup d k).isSome := by
  induction rows with
  | nil =>
    intro d0 d k h h0
    simp only [extract_imo_loop, Except.ok.injEq] at h
    subst h
    exact h0
  | cons row rest ih =>
    intro d0 d k h h0
    cases row with
    | nil => simp [extract_imo_loop] at h
    | cons f0 tail =>
      cases tail with
      | nil => simp [extract_imo_loop] at h
      | cons f1 t =>
        simp only [extract_imo_loop] at h
        exact ih _ d k h (dictLookup_isSome_dictInsert d0 f0 f1 k h0)

/-- When the CSV loop completes, every row it processed had at least two
fields, and the key taken from field 0 of each row resolves in the final
dict. -/
theorem extract_imo_loop_rows (rows : List (List String)) :
    ∀ (d0 d : Dict), extract_imo_loop d0 rows = Except.ok d →
      ∀ r ∈ rows, ∃ f0 f1 t, r = f0 :: f1 :: t ∧ (dictLookup d f0).isSome := by
  induction rows with
  | nil =>
    intro d0 d h r hr
    exact absurd hr (List.not_mem_nil r)
  | cons row rest ih =>
    intro d0 d h r hr
    cases row with
    | nil => simp [extract_imo_loop] at h
    | cons f0 tail =>
      cases tail with
      | nil => simp [extract_imo_loop] at h
      | cons f1 t =>
        simp only [extract_imo_loop] at h
        rcases List.mem_cons.mp hr with h1 | h1
        · subst h1
          refine ⟨f0, f1, t, rfl, ?_⟩
          have hins : (dictLookup (dictInsert d0 f0 f1) f0).isSome := by
            rw [dictLookup_dictInsert]
            simp
          exact extract_imo_loop_isSome rest _ d f0 h hins
        · exact ih _ d h r h1

/-- Every entry of the dict produced by the CSV loop comes from the initial
dict or from the first two fields of some processed row. -/
theorem extract_imo_loop_mem (rows : List (List String)) :
    ∀ (d0 d : Dict), extract_imo_loop d0 rows = Except.ok d →
      ∀ p ∈ d, p ∈ d0 ∨ ∃ r ∈ rows, ∃ t, r = p.1 :: p.2 :: t := by
  induction rows with
  | nil =>
    intro d0 d h p hp
    simp only [extract_imo_loop, Except.ok.injEq] at h
    subst h
    exact Or.inl hp
  | cons row rest ih =>
    intro d0 d h p hp
    cases row with
    | nil => simp [extract_imo_loop] at h
    | cons f0 tail =>
      cases tail with
      | nil => simp [extract_imo_loop] at h
      | cons f1 t =>
        simp only [extract_imo_loop] at h
        rcases ih _ d h p hp with h1 | h1
        · rcases mem_dictInsert d0 f0 f1 p h1 with h2 | h2
          · right
            exact ⟨f0 :: f1 :: t, List.mem_cons_self _ _, t, by rw [h2]⟩
          · exact Or.inl h2
        · right
          rcases h1 with ⟨r, hr, t', ht⟩
          exact ⟨r, List.mem_cons_of_mem _ hr, t', ht⟩

/-- A row with fewer than two fields makes the CSV loop raise `IndexError`,
whatever well-formed rows precede or follow it. -/
theorem extract_imo_loop_short (row : List String) (hrow : row.length < 2)
    (rest : List (List String)) :
    ∀ (pre : List (List String)) (d0 : Dict), (∀ r ∈ pre, 2 ≤ r.length) →
      extract_imo_loop d0 (pre ++ row :: rest) = Except.error PyError.indexError := by
  intro pre
  induction pre with
  | nil =>
    intro d0 _hpre
    cases row with
    | nil => simp [extract_imo_loop]
    | cons f0 tail =>
      cases tail with
      | nil => simp [extract_imo_loop]
      | cons f1 t =>
        exfalso
        simp only [List.length_cons] at hrow
        omega
  | cons q pre' ih =>
    intro d0 hpre
    cases q with
    | nil =>
      have hq := hpre [] (List.mem_cons_self _ _)
      simp at hq
    | cons f0 tail =>
      cases tail with
      | nil =>
        have hq := hpre [f0] (List.mem_cons_self _ _)
        simp at hq
      | cons f1 t =>
        simp only [List.cons_append, extract_imo_loop]
        exact ih _ (fun r hr => hpre r (List.mem_cons_of_mem _ hr))

/-- Keeping the left option when it is present ignores a `none` fallback. -/
theorem optOr_none_right (a : Option String) : optOr a none = a := by
  cases a <;> rfl

/-- The last matching row of a concatenation: the second part takes
precedence over the first. -/
theorem lastMMSI_append (k : String) (l1 l2 : List (List String)) :
    lastMMSI k (l1 ++ l2) = optOr (lastMMSI k l2) (lastMMSI k l1) := by
  induction l1 with
  | nil => simp [lastMMSI, optOr_none_right]
  | cons r l1' ih =>
    have step1 : lastMMSI k ((r :: l1') ++ l2) = optOr (lastMMSI k (l1' ++ l2)) (rowValue k r) := rfl
    have step2 : lastMMSI k (r :: l1') = optOr (lastMMSI k l1') (rowValue k r) := rfl
    rw [step1, ih, step2]
    cases hL : lastMMSI k l2 <;> cases hR : lastMMSI k l1' <;> simp [optOr, hL, hR]

/-- A row whose first field is not `k` contributes nothing for key `k`. -/
theorem rowValue_eq_none (k : String) (r : List String) (h : r.head? ≠ some k) :
    rowValue k r = none := by
  cases r with
  | nil => rfl
  | cons f0 tail =>
    cases tail with
    | nil => rfl
    | cons f1 t =>
      rw [rowValue, if_neg]
      intro hf
      exact h (by rw [List.head?_cons, hf])

/-- Rows none of which start with `k` leave key `k` unresolved. -/
theorem lastMMSI_eq_none (k : String) (l : List (List String))
    (h : ∀ r ∈ l, r.head? ≠ some k) : lastMMSI k l = none := by
  induction l with
  | nil => rfl
  | cons r rest ih =>
    rw [lastMMSI, ih (fun r' hr' => h r' (List.mem_cons_of_mem _ hr')),
      rowValue_eq_none k r (h r (List.mem_cons_self _ _))]
    rfl

/-- Tag search over sibling subtrees only returns nodes of those subtrees:
every match is one of the siblings or a descendant of one of them. -/
theorem mem_descendantsList_of_mem_matchedList (tag : String) (cs : List XmlNode)
    (e : XmlNode) (h : e ∈ matchedList tag cs) : e ∈ descendantsList cs := by
  cases cs with
  | nil => simp [matchedList] at h
  | cons c rest =>
    rw [matchedList] at h
    rw [descendantsList]
    rcases List.mem_append.mp h with h1 | h2
    · cases c with
      | text d => simp [matchedSelf] at h1
      | element t cs' =>
        rw [matchedSelf] at h1
        rcases List.mem_append.mp h1 with hA | hB
        · by_cases ht : t = tag
          · rw [if_pos ht] at hA
            have he : e = XmlNode.element t cs' := by simpa using hA
            subst he
            exact List.mem_cons_self _ _
          · rw [if_neg ht] at hA
            simp at hA
        · have ih := mem_descendantsList_of_mem_matchedList tag cs' e hB
          refine List.mem_cons_of_mem _ (List.mem_append.mpr (Or.inl ?_))
          simpa [descendants] using ih
    · have ih := mem_descendantsList_of_mem_matchedList tag rest e h2
      exact List.mem_cons_of_mem _ (List.mem_append.mpr (Or.inr ih))
termination_by sizeOf cs

/-- Every element returned by `getElementsByTagName` on a node is a strict
descendant of that node. -/
theorem mem_descendants_of_mem_getElementsByTagName (tag : String) (n e : XmlNode)
    (h : e ∈ getElementsByTagName tag n) : e ∈ descendants n := by
  cases n with
  | text d => simp [getElementsByTagName] at h
  | element t cs => exact mem_descendantsList_of_mem_matchedList tag cs e h

/-- A node that is not a TEXT_NODE carries no text data. -/
theorem textData_of_not_isTextNode :
    ∀ a : XmlNode, isTextNode a = false → textData a = none := by
  intro a h
  cases a with
  | text d => simp [isTextNode] at h
  | element t cs => rfl

/-- Dropping all TEXT_NODE children leaves no text data to collect. -/
theorem filterMap_textData_filter (cs : List XmlNode) :
    (cs.filter (fun c => !(isTextNode c))).filterMap textData = [] := by
  simp
  exact fun a _ h => textData_of_not_isTextNode a h

/-- Collecting the data of the direct TEXT_NODE children is the same as
filtering by node kind. -/
theorem filterMap_textData_eq_directTextPieces (cs : List XmlNode) :
    cs.filterMap textData = directTextPieces cs := by
  induction cs with
  | nil => rfl
  | cons c rest ih => cases c <;> simp [textData, directTextPieces, ih]

/-- Claim C1 (code evidence): at the reference fixture — a registry mapping
IMO 8219384 to MMSI 367049000 and a document whose single concept carries
prefLabel "2nd Lt. John P.Bobo" and a JSON definition with that IMO —
`extract_ship_properties` completes, returns Python `None` (no set at all,
hence no record `(imo, name, mmsi)` in any result set), and merely prints
the definition text. -/
theorem fixture_record_never_emitted :
    extract_ship_properties (CsvInput.ok [["8219384", "367049000"]])
        (XmlInput.ok sampleDoc) =
      Except.ok (RunResult.mk none [sampleDefinitionText]) := rfl

/-- Claim C2 (code evidence): a concept node that has a prefLabel but no
`skos:definition` child is not silently skipped — the subscript
`member.getElementsByTagName("skos:definition")[0]` raises `IndexError` and
the whole extraction aborts instead of completing normally. -/
theorem missing_definition_aborts :
    extract_ship_properties (CsvInput.ok [["8219384", "367049000"]])
        (XmlInput.ok noDefinitionDoc) =
      Except.error PyError.indexError := rfl

/-- Claim C3: when the CSV input contains two rows with the same IMO key
(field 0) and the later of the two is the last row carrying that key,
`extract_imo` maps the key to the MMSI of the later row, and the resulting
dict stores at most one entry per IMO (its keys are pairwise distinct), the
earlier duplicate having been overwritten. -/
theorem extract_imo_last_wins (pre mid post : List (List String)) (k v1 v2 : String)
    (r1 r2 : List String) (d : Dict)
    (h : extract_imo (pre ++ (k :: v1 :: r1) :: mid ++ (k :: v2 :: r2) :: post) =
      Except.ok d)
    (hmid : ∀ r ∈ mid, r.head? ≠ some k) (hpost : ∀ r ∈ post, r.head? ≠ some k) :
    dictLookup d k = some v2 ∧ (d.map Prod.fst).Nodup := by
  constructor
  · have hl := extract_imo_loop_lookup _ [] d h k
    rw [hl, lastMMSI_append]
    have h2 : lastMMSI k ((k :: v2 :: r2) :: post) = some v2 := by
      rw [lastMMSI, lastMMSI_eq_none k post hpost]
      simp [rowValue, optOr]
    rw [h2]
    rfl
  · exact extract_imo_loop_nodup _ [] d (by simp) h

/-- Claim C3 witness: two rows with key A and values 1 then 2 resolve to 2. -/
theorem extract_imo_last_wins_witness :
    extract_imo [["A", "1"], ["A", "2"]] = Except.ok [("A", "2")] ∧
    (dictLookup [("A", "2")] ("A") = some ("2") ∧
      ([("A", "2")].map Prod.fst).Nodup) :=
  ⟨rfl, extract_imo_last_wins [] [] [] ("A") ("1") ("2") [] [] [("A", "2")] rfl
    (fun r hr => absurd hr (List.not_mem_nil r))
    (fun r hr => absurd hr (List.not_mem_nil r))⟩

/-- Claim C4 counterexample: with a readable registry and a present but
non-well-formed XML document, `extract_ship_properties` fails with the raw
`ExpatError` — which is not a `DocumentParseError` and carries no file
name — because the parse at source line 204 stands before the `try` block
and its exception propagates unwrapped. -/
theorem document_parse_counterexample :
    extract_ship_properties (CsvInput.ok [["A", "1"]]) XmlInput.notWellFormed =
      Except.error PyError.expatError ∧
    PyError.expatError ≠ PyError.documentParseError :=
  ⟨rfl, by decide⟩

/-- Claim C4 amended: whenever the registry loads, a missing document file
makes `extract_ship_properties` abort with the raw `EnvironmentError` and a
non-well-formed document makes it abort with the raw `ExpatError`; in both
cases the failure is fatal — an `Except.error`, so no result is returned —
but the exception is the underlying one, not a `DocumentParseError`
wrapper. -/
theorem document_failure_raw_and_fatal (rows : List (List String)) (d : Dict)
    (hcsv : extract_imo rows = Except.ok d) :
    extract_ship_properties (CsvInput.ok rows) XmlInput.ioError =
        Except.error PyError.fileNotFound ∧
      extract_ship_properties (CsvInput.ok rows) XmlInput.notWellFormed =
        Except.error PyError.expatError := by
  constructor <;> simp [extract_ship_properties, readCsv, parseXml, hcsv]

/-- Claim C4 witness: the fatal-abort theorem at a one-row registry. -/
theorem document_failure_raw_and_fatal_witness :
    extract_imo [["A", "1"]] = Except.ok [("A", "1")] ∧
    (extract_ship_properties (CsvInput.ok [["A", "1"]]) XmlInput.ioError =
        Except.error PyError.fileNotFound ∧
      extract_ship_properties (CsvInput.ok [["A", "1"]]) XmlInput.notWellFormed =
        Except.error PyError.expatError) :=
  ⟨rfl, document_failure_raw_and_fatal [["A", "1"]] [("A", "1")] rfl⟩

/-- Claim C5: the element whose text `extract_ship_properties` takes as
`vessel_name` for a concept node (source line 210, modelled by
`conceptNameElem`) is always a strict descendant of that concept node; in
particular it can never be a node — such as the collection's own
prefLabel — that lies outside the concept's subtree. -/
theorem conceptName_scoped (c e : XmlNode) (h : conceptNameElem c = some e) :
    e ∈ descendants c ∧ ∀ L : XmlNode, L ∉ descendants c → e ≠ L := by
  have hmem : e ∈ getElementsByTagName ("skos:prefLabel") c := by
    unfold conceptNameElem at h
    rcases hl : getElementsByTagName ("skos:prefLabel") c with _ | ⟨x, xs⟩
    · rw [hl] at h
      exact absurd h (by simp)
    · rw [hl] at h
      have hx : x = e := by simpa using h
      rw [← hx]
      exact List.mem_cons_self _ _
  have hd : e ∈ descendants c :=
    mem_descendants_of_mem_getElementsByTagName _ c e hmem
  exact ⟨hd, fun L hL he => hL (he ▸ hd)⟩

/-- Claim C5 witness: for the sample concept the name element is its own
prefLabel, a descendant of the concept, and therefore distinct from every
node outside the concept's subtree. -/
theorem conceptName_scoped_witness :
    conceptNameElem sampleConcept = some samplePrefLabel ∧
    (samplePrefLabel ∈ descendants sampleConcept ∧
      ∀ L : XmlNode, L ∉ descendants sampleConcept → samplePrefLabel ≠ L) :=
  ⟨rfl, conceptName_scoped sampleConcept samplePrefLabel rfl⟩

/-- Claim C6: `get_text` returns the concatenation of the data of the
element's direct TEXT_NODE children in document order with surrounding
whitespace stripped; an element none of whose children are text nodes
yields the empty string; and an element child (whatever text its own
subtree holds) contributes nothing to its parent's text. -/
theorem get_text_spec (t t2 : String) (cs cs1 cs2 ds : List XmlNode) :
    get_text (XmlNode.element t cs) = pyStrip (String.join (directTextPieces cs)) ∧
    get_text (XmlNode.element t (cs.filter (fun c => !(isTextNode c)))) = "" ∧
    get_text (XmlNode.element t (cs1 ++ XmlNode.element t2 ds :: cs2)) =
      get_text (XmlNode.element t (cs1 ++ cs2)) := by
  refine ⟨?_, ?_, ?_⟩
  · rw [get_text]
    simp only [childNodes]
    rw [filterMap_textData_eq_directTextPieces]
  · rw [get_text]
    simp only [childNodes]
    rw [filterMap_textData_filter]
    decide
  · simp only [get_text, childNodes, List.filterMap_append, List.filterMap_cons, textData]

/-- Claim C7: when `extract_imo` completes on a CSV input, every row — the
first included, no header being skipped — had at least two fields and got
its field-0 key bound in the returned dict, and conversely every entry of
the returned dict is the (field 0, field 1) pair of some row. -/
theorem extract_imo_consumes_every_row (rows : List (List String)) (d : Dict)
    (h : extract_imo rows = Except.ok d) :
    (∀ r ∈ rows, ∃ f0 f1 t, r = f0 :: f1 :: t ∧ (dictLookup d f0).isSome) ∧
    (∀ p ∈ d, ∃ r ∈ rows, ∃ t, r = p.1 :: p.2 :: t) := by
  constructor
  · exact extract_imo_loop_rows rows [] d h
  · intro p hp
    rcases extract_imo_loop_mem rows [] d h p hp with h1 | h1
    · exact absurd h1 (List.not_mem_nil p)
    · exact h1

/-- Claim C7 witness: a one-row registry is consumed as row 0. -/
theorem extract_imo_consumes_every_row_witness :
    extract_imo [["9315513", "366947110"]] = Except.ok [("9315513", "366947110")] ∧
    ((∀ r ∈ [["9315513", "366947110"]], ∃ f0 f1 t, r = f0 :: f1 :: t ∧
        (dictLookup [("9315513", "366947110")] f0).isSome) ∧
      (∀ p ∈ [("9315513", "366947110")], ∃ r ∈ [["9315513", "366947110"]],
        ∃ t, r = p.1 :: p.2 :: t)) :=
  ⟨rfl, extract_imo_consumes_every_row [["9315513", "366947110"]]
    [("9315513", "366947110")] rfl⟩

/-- Claim C8 counterexample: a registry whose middle row has a single field
makes `extract_imo` fail with a bare `IndexError` — it neither skips the
row (which would return the dict of the two good rows) nor raises a
labelled `MalformedRowError`. -/
theorem extract_imo_short_row_counterexample :
    extract_imo [["X", "1"], ["junk"], ["Y", "2"]] = Except.error PyError.indexError ∧
    PyError.indexError ≠ PyError.malformedRowError ∧
    (Except.error PyError.indexError : Except PyError Dict) ≠
      Except.ok [("X", "1"), ("Y", "2")] :=
  ⟨rfl, by decide, by simp⟩

/-- Claim C8 amended: a row with fewer than two fields — wherever it sits
after well-formed rows — makes `extract_imo` abort with an unlabeled
`IndexError`; the row is not skipped and no `MalformedRowError` exists in
the code. -/
theorem extract_imo_short_row_aborts (pre : List (List String)) (row : List String)
    (rest : List (List String)) (hpre : ∀ r ∈ pre, 2 ≤ r.length)
    (hrow : row.length < 2) :
    extract_imo (pre ++ row :: rest) = Except.error PyError.indexError :=
  extract_imo_loop_short row hrow rest pre [] hpre

/-- Claim C8 amended witness: the single-field row "junk" aborts the load. -/
theorem extract_imo_short_row_aborts_witness :
    (∀ r ∈ [["X", "1"]], 2 ≤ r.length) ∧ (["junk"] : List String).length < 2 ∧
    extract_imo ([["X", "1"]] ++ ["junk"] :: [["Y", "2"]]) =
      Except.error PyError.indexError :=
  ⟨fun r hr => by rw [List.mem_singleton] at hr; subst hr; decide,
    by decide,
    extract_imo_short_row_aborts [["X", "1"]] ["junk"] [["Y", "2"]]
      (fun r hr => by rw [List.mem_singleton] at hr; subst hr; decide)
      (by decide)⟩

/-- Claim C9 (code evidence): even with an empty registry — so that no
record could ever be matched — processing the sample document writes the
concept's definition text to standard output (the `print` at source line
214) and returns `None`; the call is not free of observable side effects
beyond its return value. -/
theorem extract_prints_to_console :
    extract_ship_properties (CsvInput.ok []) (XmlInput.ok sampleDoc) =
      Except.ok (RunResult.mk none [sampleDefinitionText]) ∧
    [sampleDefinitionText] ≠ ([] : List String) :=
  ⟨rfl, by simp⟩

/-- Claim C10: whenever `extract_ship_properties` completes without raising
an exception, its Python return value is `None` — the function body never
adds to the set it initializes and has no `return` statement, so no input
makes it return a set. -/
theorem extract_ship_properties_returns_none (csvIn : CsvInput) (xmlIn : XmlInput)
    (r : RunResult) (h : extract_ship_properties csvIn xmlIn = Except.ok r) :
    r.returned = none := by
  unfold extract_ship_properties at h
  split at h
  · exact absurd h (by simp)
  · split at h
    · exact absurd h (by simp)
    · split at h
      · exact absurd h (by simp)
      · injection h with h1
        rw [← h1]

/-- Claim C10 witness: on an empty document the call completes with return
value `None`. -/
theorem extract_ship_properties_returns_none_witness :
    extract_ship_properties (CsvInput.ok [])
        (XmlInput.ok (XmlNode.element ("rdf:RDF") [])) =
      Except.ok (RunResult.mk none []) ∧
    (RunResult.mk none []).returned = none :=
  ⟨rfl, extract_ship_properties_returns_none (CsvInput.ok [])
    (XmlInput.ok (XmlNode.element ("rdf:RDF") [])) (RunResult.mk none []) rfl⟩
